import Mathlib

set_option autoImplicit false

/-!
Shallow embedding of the to-do list application's task lifecycle: the
Express server's JSON-store route handlers (`server.js`), the browser
`Storage` module over localStorage (`js/storage.js`), and the client
recycle-bin view (`app.js`), together with theorems about the recycle-bin
retention policy and the two-store invariants.

JavaScript objects are open maps, so every task field other than the
identifier is modelled as an `Option` (`none` = key absent).  Timestamps
are integers (milliseconds since the epoch); the calendar computation
`thirtyDaysAgo` becomes an explicit `cutoff` parameter, with
`cutoff = now - retentionWindowMs` when a claim speaks of task age.
-/

namespace TodoApp

/-- A task record as stored in `todos.json` / `recycled.json` (server) or
in the `todoTasks` / `recycledTasks` localStorage keys (browser). -/
structure Task where
  id : String
  title : Option String := none
  completed : Option Bool := none
  dueDate : Option String := none
  category : Option String := none
  createdAt : Option Int := none
  updatedAt : Option Int := none
  deletedAt : Option Int := none
  restoredAt : Option Int := none
  deriving Repr, DecidableEq

/-- A JSON request body for create (`POST /api/todos`) or edit
(`PUT /api/todos/:id`): any subset of the task keys may be present. -/
structure Body where
  id : Option String := none
  title : Option String := none
  completed : Option Bool := none
  dueDate : Option String := none
  category : Option String := none
  createdAt : Option Int := none
  updatedAt : Option Int := none
  deletedAt : Option Int := none
  restoredAt : Option Int := none
  deriving Repr, DecidableEq

/-- Object-spread override semantics: a key present in the later object
wins, an absent key falls back to the earlier object. -/
def spreadOv {α : Type} (new old : Option α) : Option α :=
  match new with
  | some v => some v
  | none => old

/-- Embedding of `findIndex` followed by `splice(i, 1)`: the first element
satisfying `p` paired with the list with that element removed, or `none`
when `findIndex` returns `-1`. -/
def extractFirst {α : Type} (p : α → Bool) : List α → Option (α × List α)
  | [] => none
  | x :: xs =>
    if p x then some (x, xs)
    else
      match extractFirst p xs with
      | some (y, ys) => some (y, x :: ys)
      | none => none

/-- Embedding of `findIndex` followed by the in-place assignment
`arr[i] = f(arr[i])`: the updated element paired with the updated list, or
`none` when the index is `-1`. -/
def modifyFirst {α : Type} (f : α → α) (p : α → Bool) : List α → Option (α × List α)
  | [] => none
  | x :: xs =>
    if p x then some (f x, f x :: xs)
    else
      match modifyFirst f p xs with
      | some (y, ys) => some (y, x :: ys)
      | none => none

/-- The server's two JSON stores: the Active Set (`todos.json`) and the
Recycle Set (`recycled.json`). -/
structure ServerState where
  todos : List Task
  recycled : List Task
  deriving Repr, DecidableEq

/-- The record built by `app.post('/api/todos')`:
`{ id: uuidv4(), ...req.body, createdAt: now }`.  The spread of the
request body comes after the generated `id`, so a body `id` key overrides
the fresh identifier, and before `createdAt`, so `createdAt` is always the
server clock. -/
def createTask (body : Body) (freshId : String) (now : Int) : Task :=
  { id := body.id.getD freshId
    title := body.title
    completed := body.completed
    dueDate := body.dueDate
    category := body.category
    createdAt := some now
    updatedAt := body.updatedAt
    deletedAt := body.deletedAt
    restoredAt := body.restoredAt }

/-- Handler of `app.post('/api/todos')`: push the new record onto the
Active Set and return it with status 201.  No validation is performed. -/
def postTodo (s : ServerState) (body : Body) (freshId : String) (now : Int) :
    ServerState × Task :=
  let newTodo := createTask body freshId now
  ({ s with todos := s.todos ++ [newTodo] }, newTodo)

/-- The merge performed by `app.put('/api/todos/:id')`:
`{ ...todos[todoIndex], ...req.body, updatedAt: now }`.  A body `id` key
overrides the stored identifier; `updatedAt` is always the server clock. -/
def mergeTodo (t : Task) (body : Body) (now : Int) : Task :=
  { id := body.id.getD t.id
    title := spreadOv body.title t.title
    completed := spreadOv body.completed t.completed
    dueDate := spreadOv body.dueDate t.dueDate
    category := spreadOv body.category t.category
    createdAt := spreadOv body.createdAt t.createdAt
    updatedAt := some now
    deletedAt := spreadOv body.deletedAt t.deletedAt
    restoredAt := spreadOv body.restoredAt t.restoredAt }

/-- Handler of `app.put('/api/todos/:id')`: 404 when the identifier is
absent, otherwise replace the task in place and return it.  No
validation is performed. -/
def putTodo (s : ServerState) (id : String) (body : Body) (now : Int) :
    Option (ServerState × Task) :=
  match modifyFirst (fun t => mergeTodo t body now) (fun t => t.id == id) s.todos with
  | none => none
  | some (t, todos) => some ({ s with todos := todos }, t)

/-- The toggle of `app.patch('/api/todos/:id/toggle')`:
`completed = !completed` (JavaScript negation of an absent key yields
`true`), and `updatedAt` is stamped. -/
def toggleTodo (t : Task) (now : Int) : Task :=
  { t with completed := some (! t.completed.getD false), updatedAt := some now }

/-- Handler of `app.patch('/api/todos/:id/toggle')`. -/
def patchToggle (s : ServerState) (id : String) (now : Int) :
    Option (ServerState × Task) :=
  match modifyFirst (fun t => toggleTodo t now) (fun t => t.id == id) s.todos with
  | none => none
  | some (t, todos) => some ({ s with todos := todos }, t)

/-- Handler of `app.patch('/api/todos/:id/recycle')`: splice the task out
of the Active Set, stamp `deletedAt` — no other field is touched, in
particular any prior `restoredAt` is left as it was — push it onto the
Recycle Set and return it; 404 (with no write) when absent. -/
def patchRecycle (s : ServerState) (id : String) (now : Int) :
    Option (ServerState × Task) :=
  match extractFirst (fun t => t.id == id) s.todos with
  | none => none
  | some (t, rest) =>
    let removedTodo := { t with deletedAt := some now }
    some ({ todos := rest, recycled := s.recycled ++ [removedTodo] }, removedTodo)

/-- Handler of `app.patch('/api/todos/:id/restore')`: splice the task out
of the Recycle Set, `delete restoredTodo.deletedAt`, stamp `restoredAt`,
push it onto the Active Set and return it; 404 (with no write) when
absent. -/
def patchRestore (s : ServerState) (id : String) (now : Int) :
    Option (ServerState × Task) :=
  match extractFirst (fun t => t.id == id) s.recycled with
  | none => none
  | some (t, rest) =>
    let restoredTodo := { t with deletedAt := none, restoredAt := some now }
    some ({ todos := s.todos ++ [restoredTodo], recycled := rest }, restoredTodo)

/-- Handler of `app.delete('/api/todos/:id')` (permanent delete): splice
the task out of the Recycle Set only and return it; 404 (with no write)
when absent.  The Active Set is never read or written. -/
def deleteTodoPermanently (s : ServerState) (id : String) :
    Option (ServerState × Task) :=
  match extractFirst (fun t => t.id == id) s.recycled with
  | none => none
  | some (t, rest) => some ({ s with recycled := rest }, t)

/-- The retention predicate of `app.delete('/api/todos/cleanup')`:
`new Date(todo.deletedAt) >= thirtyDaysAgo`, i.e. a record survives when
its `deletedAt` is at or after the cutoff.  A record without `deletedAt`
yields an invalid date, whose comparisons are all false in JavaScript. -/
def serverKeep (cutoff : Int) (t : Task) : Bool :=
  match t.deletedAt with
  | some d => cutoff ≤ d
  | none => false

/-- Handler of `app.delete('/api/todos/cleanup')`: filter the Recycle Set
by `serverKeep` and report how many records were removed. -/
def cleanupTodos (s : ServerState) (cutoff : Int) : ServerState × Nat :=
  let filteredRecycled := s.recycled.filter (serverKeep cutoff)
  ({ s with recycled := filteredRecycled },
    s.recycled.length - filteredRecycled.length)

/-- The browser module's two localStorage collections: the `todoTasks`
key (Active Set) and the `recycledTasks` key (Recycle Set). -/
structure StorageState where
  tasks : List Task
  recycledTasks : List Task
  deriving Repr, DecidableEq

/-- Embedding of `Storage.deleteTask`: move the first matching task, with
`deletedAt` stamped and every other field (including any prior
`restoredAt`) untouched, onto the recycled collection; a silent no-op
when the identifier is absent.  Returns the updated active list in either
case — there is no NotFound signal. -/
def storageDeleteTask (s : StorageState) (taskId : String) (now : Int) :
    StorageState × List Task :=
  match extractFirst (fun t => t.id == taskId) s.tasks with
  | none => (s, s.tasks)
  | some (t, rest) =>
    let s1 : StorageState :=
      { tasks := rest
        recycledTasks := s.recycledTasks ++ [{ t with deletedAt := some now }] }
    (s1, s1.tasks)

/-- Embedding of `Storage.restoreTask`: splice the first matching task out
of the recycled collection, `delete taskToRestore.deletedAt` — no
`restoredAt` is stamped; the function takes no clock at all — and push it
onto the active collection; a silent no-op when the identifier is absent.
Returns the remaining recycled list in either case. -/
def storageRestoreTask (s : StorageState) (taskId : String) :
    StorageState × List Task :=
  match extractFirst (fun t => t.id == taskId) s.recycledTasks with
  | none => (s, s.recycledTasks)
  | some (t, rest) =>
    let s1 : StorageState :=
      { tasks := s.tasks ++ [{ t with deletedAt := none }]
        recycledTasks := rest }
    (s1, s1.recycledTasks)

/-- Embedding of `Storage.permanentlyDeleteTask`: filter the identifier
out of the recycled collection and write the result back unconditionally.
There is no NotFound path; the filtered list is returned in every case
and the active collection is never touched. -/
def storagePermanentlyDeleteTask (s : StorageState) (taskId : String) :
    StorageState × List Task :=
  let filteredTasks := s.recycledTasks.filter (fun t => !(t.id == taskId))
  ({ s with recycledTasks := filteredTasks }, filteredTasks)

/-- The retention predicate of `Storage.cleanupRecycleBin`:
`deletedDate > thirtyDaysAgo`, i.e. a record survives only when its
`deletedAt` is strictly after the cutoff. -/
def storageKeep (cutoff : Int) (t : Task) : Bool :=
  match t.deletedAt with
  | some d => cutoff < d
  | none => false

/-- Embedding of `Storage.cleanupRecycleBin`: filter the recycled
collection by `storageKeep` and return the filtered list. -/
def storageCleanupRecycleBin (s : StorageState) (cutoff : Int) :
    StorageState × List Task :=
  let filteredTasks := s.recycledTasks.filter (storageKeep cutoff)
  ({ s with recycledTasks := filteredTasks }, filteredTasks)

/-- The 30-day retention window in milliseconds. -/
def retentionWindowMs : Int := 2592000000

/-- Embedding of JavaScript `String.prototype.trim`: drop leading and
trailing whitespace characters. -/
def jsTrim (s : String) : String :=
  ⟨((s.data.dropWhile Char.isWhitespace).reverse.dropWhile Char.isWhitespace).reverse⟩

/-- The client save-task handler's guard (`app.js`): the title input is
trimmed and `if (!title) { alert(...); return; }` aborts before any API
request, so the body sent to `POST /api/todos` exists only for a
non-empty trimmed title.  The body built by the client carries no `id`
key. -/
def clientSaveTask (input dueDate category : String) (now : Int) : Option Body :=
  let title := jsTrim input
  if title = "" then none
  else
    some { title := some title
           dueDate := some dueDate
           category := some category
           completed := some false
           createdAt := some now }

/-- An Express route pattern for the path segment after `/api/todos/`:
a `:id` parameter matches any segment, a literal matches only itself. -/
inductive RoutePat
  | param
  | lit (s : String)
  deriving Repr, DecidableEq

/-- Whether a route pattern matches a concrete path segment. -/
def routePatMatches : RoutePat → String → Bool
  | RoutePat.param, _ => true
  | RoutePat.lit s, seg => seg == s

/-- The two DELETE handlers registered under `/api/todos/`. -/
inductive DeleteHandler
  | byId
  | cleanupBin
  deriving Repr, DecidableEq

/-- The server's DELETE routes in registration order: the permanent-delete
route `'/api/todos/:id'` is registered before the cleanup route
`'/api/todos/cleanup'`. -/
def deleteRoutes : List (RoutePat × DeleteHandler) :=
  [(RoutePat.param, DeleteHandler.byId),
   (RoutePat.lit "cleanup", DeleteHandler.cleanupBin)]

/-- Express dispatch: the first registered route whose pattern matches the
path segment handles the request. -/
def dispatchDelete (seg : String) : Option DeleteHandler :=
  (deleteRoutes.find? (fun r => routePatMatches r.1 seg)).map (fun r => r.2)

/-- The server state after `DELETE /api/todos/<seg>`, following the
dispatch above; a 404 leaves the stores unwritten. -/
def handleDelete (s : ServerState) (seg : String) (cutoff : Int) : ServerState :=
  match dispatchDelete seg with
  | some DeleteHandler.byId =>
    match deleteTodoPermanently s seg with
    | none => s
    | some (s1, _) => s1
  | some DeleteHandler.cleanupBin => (cleanupTodos s cutoff).1
  | none => s

/-- The observable effect of the client's `showRecycleBin` (`app.js`): the
recycled list is fetched and rendered first (`ApiService.getRecycledTasks`)
and only afterwards, as the last step of the opening, is the cleanup
request `DELETE /api/todos/cleanup` issued.  Returns the list surfaced to
the viewer together with the server state once the opening completes. -/
def showRecycleBin (s : ServerState) (cutoff : Int) : List Task × ServerState :=
  (s.recycled, handleDelete s "cleanup" cutoff)

/-- A public server operation together with the request data it carries. -/
inductive Op
  | create (body : Body) (freshId : String) (now : Int)
  | edit (id : String) (body : Body) (now : Int)
  | toggle (id : String) (now : Int)
  | recycle (id : String) (now : Int)
  | restore (id : String) (now : Int)
  | purge (id : String)
  | sweep (cutoff : Int)

/-- The server state after a public operation; a 404 leaves the stores as
they were read. -/
def applyOp (s : ServerState) : Op → ServerState
  | Op.create body freshId now => (postTodo s body freshId now).1
  | Op.edit id body now =>
    match putTodo s id body now with
    | none => s
    | some (s1, _) => s1
  | Op.toggle id now =>
    match patchToggle s id now with
    | none => s
    | some (s1, _) => s1
  | Op.recycle id now =>
    match patchRecycle s id now with
    | none => s
    | some (s1, _) => s1
  | Op.restore id now =>
    match patchRestore s id now with
    | none => s
    | some (s1, _) => s1
  | Op.purge id =>
    match deleteTodoPermanently s id with
    | none => s
    | some (s1, _) => s1
  | Op.sweep cutoff => (cleanupTodos s cutoff).1

/-- The identifiers of a task list, in order. -/
def taskIds (l : List Task) : List String := l.map (fun t => t.id)

/-- Well-formedness of the two stores: no duplicate identifier within
either store, and no identifier present in both. -/
def WFState (s : ServerState) : Prop :=
  (taskIds s.todos).Nodup ∧ (taskIds s.recycled).Nodup ∧
    ∀ i, i ∈ taskIds s.todos → i ∉ taskIds s.recycled

/-- Side conditions under which an operation is claimed to keep the stores
well-formed: the generated identifier of a create is fresh and the
create/edit request bodies carry no `id` key. -/
def OpOk (s : ServerState) : Op → Prop
  | Op.create body freshId _ =>
    body.id = none ∧ freshId ∉ taskIds s.todos ∧ freshId ∉ taskIds s.recycled
  | Op.edit _ body _ => body.id = none
  | _ => True

/-! Support lemmas about the splice/assignment embeddings. -/

/-- A successful `extractFirst` splits the list around the extracted
element. -/
theorem extractFirst_split {α : Type} {p : α → Bool} {l : List α} {t : α}
    {rest : List α} (h : extractFirst p l = some (t, rest)) :
    ∃ l1 l2, l = l1 ++ t :: l2 ∧ rest = l1 ++ l2 := by
  induction l generalizing rest with
  | nil => simp [extractFirst] at h
  | cons x xs ih =>
    by_cases hx : p x
    · rw [extractFirst, if_pos hx] at h
      obtain ⟨rfl, rfl⟩ : x = t ∧ xs = rest := by simpa using h
      exact ⟨[], xs, rfl, rfl⟩
    · rw [extractFirst, if_neg hx] at h
      cases heq : extractFirst p xs with
      | none => rw [heq] at h; simp at h
      | some pr =>
        obtain ⟨y, ys⟩ := pr
        rw [heq] at h
        obtain ⟨rfl, rfl⟩ : y = t ∧ x :: ys = rest := by simpa using h
        obtain ⟨l1, l2, rfl, rfl⟩ := ih heq
        exact ⟨x :: l1, l2, rfl, rfl⟩

/-- When no element satisfies `p`, `extractFirst` finds nothing. -/
theorem extractFirst_eq_none {α : Type} {p : α → Bool} {l : List α}
    (h : ∀ x ∈ l, p x = false) : extractFirst p l = none := by
  induction l with
  | nil => rfl
  | cons x xs ih =>
    rw [extractFirst, if_neg (by simp [h x (by simp)]),
      ih (fun y hy => h y (by simp [hy]))]

/-- Appending a matching element to a list with no match extracts exactly
that element. -/
theorem extractFirst_append_match {α : Type} {p : α → Bool} {l : List α}
    {y : α} (hl : ∀ x ∈ l, p x = false) (hy : p y = true) :
    extractFirst p (l ++ [y]) = some (y, l) := by
  induction l with
  | nil => simp [extractFirst, hy]
  | cons x xs ih =>
    rw [List.cons_append, extractFirst, if_neg (by simp [hl x (by simp)]),
      ih (fun z hz => hl z (by simp [hz]))]

/-- A successful `modifyFirst` splits the list around the updated
element. -/
theorem modifyFirst_split {α : Type} {f : α → α} {p : α → Bool} {l : List α}
    {t : α} {l' : List α} (h : modifyFirst f p l = some (t, l')) :
    ∃ l1 x l2, l = l1 ++ x :: l2 ∧ l' = l1 ++ f x :: l2 ∧ t = f x := by
  induction l generalizing l' with
  | nil => simp [modifyFirst] at h
  | cons x xs ih =>
    by_cases hx : p x
    · rw [modifyFirst, if_pos hx] at h
      obtain ⟨rfl, rfl⟩ : f x = t ∧ f x :: xs = l' := by simpa using h
      exact ⟨[], x, xs, rfl, rfl, rfl⟩
    · rw [modifyFirst, if_neg hx] at h
      cases heq : modifyFirst f p xs with
      | none => rw [heq] at h; simp at h
      | some pr =>
        obtain ⟨y, ys⟩ := pr
        rw [heq] at h
        obtain ⟨rfl, rfl⟩ : y = t ∧ x :: ys = l' := by simpa using h
        obtain ⟨l1, z, l2, rfl, rfl, rfl⟩ := ih heq
        exact ⟨x :: l1, z, l2, rfl, rfl, rfl⟩

/-- The remainder of a successful `extractFirst` is a sublist of the
input. -/
theorem extractFirst_sublist {α : Type} {p : α → Bool} {l : List α} {t : α}
    {rest : List α} (h : extractFirst p l = some (t, rest)) :
    rest.Sublist l := by
  obtain ⟨l1, l2, rfl, rfl⟩ := extractFirst_split h
  exact (List.sublist_cons_self t l2).append_left l1

/-- Identifier multiset bookkeeping for `extractFirst` on task lists: the
identifiers of the input are those of the remainder with the extracted
identifier inserted in the middle. -/
theorem extractFirst_taskIds {p : Task → Bool} {l : List Task} {t : Task}
    {rest : List Task} (h : extractFirst p l = some (t, rest))
    (hnd : (taskIds l).Nodup) :
    (taskIds rest).Nodup ∧ t.id ∉ taskIds rest ∧
      (∀ i, i ∈ taskIds rest → i ∈ taskIds l) ∧ t.id ∈ taskIds l := by
  obtain ⟨l1, l2, rfl, rfl⟩ := extractFirst_split h
  have hids : taskIds (l1 ++ t :: l2) = taskIds l1 ++ t.id :: taskIds l2 := by
    simp [taskIds]
  have hids2 : taskIds (l1 ++ l2) = taskIds l1 ++ taskIds l2 := by
    simp [taskIds]
  rw [hids] at hnd
  have hmid : (t.id :: (taskIds l1 ++ taskIds l2)).Nodup :=
    List.nodup_middle.mp hnd
  rw [List.nodup_cons] at hmid
  refine ⟨by rw [hids2]; exact hmid.2, by rw [hids2]; exact hmid.1, ?_, ?_⟩
  · intro i hi
    rw [hids2] at hi
    rw [hids]
    rcases List.mem_append.mp hi with h1 | h2
    · exact List.mem_append.mpr (Or.inl h1)
    · exact List.mem_append.mpr (Or.inr (by simp [h2]))
  · rw [hids]; exact List.mem_append.mpr (Or.inr (by simp))

/-- When the update function preserves identifiers, `modifyFirst`
preserves the identifier list. -/
theorem modifyFirst_taskIds {f : Task → Task} {p : Task → Bool}
    {l : List Task} {t : Task} {l' : List Task}
    (hf : ∀ x, (f x).id = x.id)
    (h : modifyFirst f p l = some (t, l')) : taskIds l' = taskIds l := by
  obtain ⟨l1, x, l2, rfl, rfl, rfl⟩ := modifyFirst_split h
  simp [taskIds, hf x]

/-- C1 (amended): for a recycled task of age `now - deletedAt`, an age
strictly below the 30-day retention window is retained by both sweep
implementations and an age strictly above it is discarded by both, but at
the exact boundary `age = retentionWindowMs` the two implementations
disagree: the server cleanup handler retains the task (its filter keeps
`deletedAt >= cutoff`) while `Storage.cleanupRecycleBin` discards it (its
filter keeps `deletedAt > cutoff`); the inclusive-expired convention is
not applied by both. -/
theorem sweep_boundary_semantics (s : ServerState) (s2 : StorageState)
    (t : Task) (d now : Int) (hd : t.deletedAt = some d)
    (hs : t ∈ s.recycled) (hs2 : t ∈ s2.recycledTasks) :
    (now - d < retentionWindowMs →
      t ∈ (cleanupTodos s (now - retentionWindowMs)).1.recycled ∧
      t ∈ (storageCleanupRecycleBin s2 (now - retentionWindowMs)).1.recycledTasks) ∧
    (now - d = retentionWindowMs →
      t ∈ (cleanupTodos s (now - retentionWindowMs)).1.recycled ∧
      t ∉ (storageCleanupRecycleBin s2 (now - retentionWindowMs)).1.recycledTasks) ∧
    (retentionWindowMs < now - d →
      t ∉ (cleanupTodos s (now - retentionWindowMs)).1.recycled ∧
      t ∉ (storageCleanupRecycleBin s2 (now - retentionWindowMs)).1.recycledTasks) := by
  have hserver : ∀ c : Int, serverKeep c t = true ↔ c ≤ d := by
    intro c; simp [serverKeep, hd]
  have hstorage : ∀ c : Int, storageKeep c t = true ↔ c < d := by
    intro c; simp [storageKeep, hd]
  simp only [cleanupTodos, storageCleanupRecycleBin, List.mem_filter,
    hserver, hstorage, hs, hs2, true_and]
  refine ⟨fun h => ⟨by omega, by omega⟩, fun h => ⟨by omega, by omega⟩,
    fun h => ⟨by omega, by omega⟩⟩

/-- Witness for C1: a task deleted at time 70 and swept at time
`retentionWindowMs + 70` (age exactly the window) is kept by the server
sweep and dropped by the storage sweep. -/
theorem sweep_boundary_semantics_witness :
    ({ id := "b", deletedAt := some 70 } : Task) ∈
      (cleanupTodos { todos := [], recycled := [{ id := "b", deletedAt := some 70 }] }
        (2592000070 - retentionWindowMs)).1.recycled ∧
    ({ id := "b", deletedAt := some 70 } : Task) ∉
      (storageCleanupRecycleBin
        { tasks := [], recycledTasks := [{ id := "b", deletedAt := some 70 }] }
        (2592000070 - retentionWindowMs)).1.recycledTasks :=
  (sweep_boundary_semantics
    { todos := [], recycled := [{ id := "b", deletedAt := some 70 }] }
    { tasks := [], recycledTasks := [{ id := "b", deletedAt := some 70 }] }
    { id := "b", deletedAt := some 70 } 70 2592000070
    rfl (by simp) (by simp)).2.1 (by decide)

/-- C1 counterexample: a task whose age is exactly the 30-day window
(`deletedAt = cutoff`) is retained, not discarded, by the server cleanup
handler, while `Storage.cleanupRecycleBin` discards it — the two sweep
implementations do not both apply the inclusive-expired convention. -/
theorem sweep_boundary_cex :
    (cleanupTodos
        { todos := [], recycled := [{ id := "b1", deletedAt := some 70 }] } 70).1.recycled
      = [{ id := "b1", deletedAt := some 70 }] ∧
    (storageCleanupRecycleBin
        { tasks := [], recycledTasks := [{ id := "b1", deletedAt := some 70 }] } 70).1.recycledTasks
      = [] := by
  constructor <;> rfl

/-- C6: both sweep implementations are idempotent at a fixed cutoff: the
second run removes zero records on the server side and returns the
recycled store unchanged on the storage side. -/
theorem sweep_idempotent (s : ServerState) (ss : StorageState) (cutoff : Int) :
    cleanupTodos (cleanupTodos s cutoff).1 cutoff = ((cleanupTodos s cutoff).1, 0) ∧
    storageCleanupRecycleBin (storageCleanupRecycleBin ss cutoff).1 cutoff
      = storageCleanupRecycleBin ss cutoff := by
  constructor
  · simp [cleanupTodos, List.filter_filter]
  · simp [storageCleanupRecycleBin, List.filter_filter]

/-- C3 (amended): deleting a present task removes it from the Active Set,
stamps `deletedAt` with the current time, retains — rather than clears —
any prior `restoredAt`, and inserts the moved record into the Recycle
Set; the server recycle handler returns the recycled record and fails
NotFound (404) on an absent identifier, while `Storage.deleteTask`
performs the same move but returns the updated active list. -/
theorem delete_contract (s : ServerState) (ss : StorageState)
    (id id2 : String) (now : Int) (t t2 : Task) (rest rest2 : List Task)
    (hfound : extractFirst (fun x => x.id == id) s.todos = some (t, rest))
    (habsent : extractFirst (fun x => x.id == id2) s.todos = none)
    (hfound2 : extractFirst (fun x => x.id == id) ss.tasks = some (t2, rest2)) :
    patchRecycle s id now =
      some ({ todos := rest, recycled := s.recycled ++ [{ t with deletedAt := some now }] },
        { t with deletedAt := some now }) ∧
    ({ t with deletedAt := some now }).restoredAt = t.restoredAt ∧
    patchRecycle s id2 now = none ∧
    storageDeleteTask ss id now =
      ({ tasks := rest2,
         recycledTasks := ss.recycledTasks ++ [{ t2 with deletedAt := some now }] }, rest2) := by
  refine ⟨?_, rfl, ?_, ?_⟩
  · simp only [patchRecycle, hfound]
  · simp only [patchRecycle, habsent]
  · simp only [storageDeleteTask, hfound2]

/-- Witness for C3: a concrete delete of the only active task, which has
a prior `restoredAt`. -/
theorem delete_contract_witness :
    patchRecycle { todos := [{ id := "a", restoredAt := some 5 }], recycled := [] } "a" 9 =
      some ({ todos := [],
              recycled := [{ id := "a", deletedAt := some 9, restoredAt := some 5 }] },
        { id := "a", deletedAt := some 9, restoredAt := some 5 }) ∧
    patchRecycle { todos := [{ id := "a", restoredAt := some 5 }], recycled := [] } "z" 9
      = none ∧
    storageDeleteTask { tasks := [{ id := "a", restoredAt := some 5 }], recycledTasks := [] }
        "a" 9
      = ({ tasks := [],
           recycledTasks := [{ id := "a", deletedAt := some 9, restoredAt := some 5 }] }, []) := by
  have h := delete_contract
    { todos := [{ id := "a", restoredAt := some 5 }], recycled := [] }
    { tasks := [{ id := "a", restoredAt := some 5 }], recycledTasks := [] }
    "a" "z" 9 { id := "a", restoredAt := some 5 } { id := "a", restoredAt := some 5 } [] []
    (by decide) (by decide) (by decide)
  exact ⟨h.1, h.2.2.1, h.2.2.2⟩

/-- C3 counterexample: deleting a task that carries `restoredAt = some 5`
yields a recycled record whose `restoredAt` is still `some 5`; the prior
`restoredAt` is not cleared. -/
theorem delete_keeps_restoredAt_cex :
    (patchRecycle { todos := [{ id := "a", restoredAt := some 5 }], recycled := [] } "a" 9).map
        (fun r => r.2.restoredAt) = some (some 5) ∧
    (patchRecycle { todos := [{ id := "a", restoredAt := some 5 }], recycled := [] } "a" 9).map
        (fun r => r.2.restoredAt) ≠ some none := by
  constructor
  · rfl
  · decide

/-- C4 (amended): the server restore handler satisfies the claimed
contract in full — it removes the task from the Recycle Set, clears
`deletedAt`, stamps `restoredAt` with the current time, inserts the task
into the Active Set, returns the restored record, and fails NotFound
(404) on an absent identifier — but `Storage.restoreTask` removes the
task, clears `deletedAt` and inserts it into the Active Set without
stamping any `restoredAt` (it takes no clock), and returns the remaining
recycled list instead of the restored record. -/
theorem restore_contract (s : ServerState) (ss : StorageState)
    (id id2 : String) (now : Int) (t t2 : Task) (rest rest2 : List Task)
    (hfound : extractFirst (fun x => x.id == id) s.recycled = some (t, rest))
    (habsent : extractFirst (fun x => x.id == id2) s.recycled = none)
    (hfound2 : extractFirst (fun x => x.id == id) ss.recycledTasks = some (t2, rest2)) :
    patchRestore s id now =
      some ({ todos := s.todos ++ [{ t with deletedAt := none, restoredAt := some now }],
              recycled := rest },
        { t with deletedAt := none, restoredAt := some now }) ∧
    patchRestore s id2 now = none ∧
    storageRestoreTask ss id =
      ({ tasks := ss.tasks ++ [{ t2 with deletedAt := none }], recycledTasks := rest2 },
        rest2) ∧
    ({ t2 with deletedAt := none }).restoredAt = t2.restoredAt := by
  refine ⟨?_, ?_, ?_, rfl⟩
  · simp only [patchRestore, hfound]
  · simp only [patchRestore, habsent]
  · simp only [storageRestoreTask, hfound2]

/-- Witness for C4: a concrete restore of the only recycled task. -/
theorem restore_contract_witness :
    patchRestore { todos := [], recycled := [{ id := "r", deletedAt := some 50 }] } "r" 60 =
      some ({ todos := [{ id := "r", restoredAt := some 60 }], recycled := [] },
        { id := "r", restoredAt := some 60 }) ∧
    patchRestore { todos := [], recycled := [{ id := "r", deletedAt := some 50 }] } "z" 60
      = none ∧
    storageRestoreTask { tasks := [], recycledTasks := [{ id := "r", deletedAt := some 50 }] }
        "r"
      = ({ tasks := [{ id := "r" }], recycledTasks := [] }, []) := by
  have h := restore_contract
    { todos := [], recycled := [{ id := "r", deletedAt := some 50 }] }
    { tasks := [], recycledTasks := [{ id := "r", deletedAt := some 50 }] }
    "r" "z" 60 { id := "r", deletedAt := some 50 } { id := "r", deletedAt := some 50 } [] []
    (by decide) (by decide) (by decide)
  exact ⟨h.1, h.2.1, h.2.2.1⟩

/-- C4 counterexample: restoring through `Storage.restoreTask` produces an
active task whose `restoredAt` is absent — no restoration time is
stamped — and the call returns the remaining recycled list rather than
the restored record. -/
theorem restore_no_restoredAt_cex :
    ((storageRestoreTask
        { tasks := [], recycledTasks := [{ id := "r", deletedAt := some 50 }] } "r").1.tasks.map
      (fun t => t.restoredAt)) = [none] := by
  rfl

/-- C5: deleting an active task and then restoring it, with no sweep in
between, yields in the Active Set a task whose fields all equal the
original task's fields except that `deletedAt` is absent and `restoredAt`
is newly set to the restore time; the Recycle Set returns to its original
contents. -/
theorem delete_restore_roundtrip (s : ServerState) (t : Task)
    (rest : List Task) (now1 now2 : Int)
    (hfound : extractFirst (fun x => x.id == t.id) s.todos = some (t, rest))
    (hfresh : ∀ x ∈ s.recycled, (x.id == t.id) = false) :
    ∃ s1, patchRecycle s t.id now1 = some (s1, { t with deletedAt := some now1 }) ∧
      patchRestore s1 t.id now2 =
        some ({ todos := rest ++ [{ t with deletedAt := none, restoredAt := some now2 }],
                recycled := s.recycled },
          { t with deletedAt := none, restoredAt := some now2 }) := by
  refine ⟨{ todos := rest,
            recycled := s.recycled ++ [{ t with deletedAt := some now1 }] }, ?_, ?_⟩
  · simp only [patchRecycle, hfound]
  · simp only [patchRestore]
    rw [extractFirst_append_match hfresh (by simp)]

/-- Witness for C5: the scenario of the spec — create "Buy milk", delete
it, restore it. -/
theorem delete_restore_roundtrip_witness :
    ∃ s1, patchRecycle
        { todos := [{ id := "w", title := some "Buy milk", completed := some false }],
          recycled := [] } "w" 10
      = some (s1, { id := "w", title := some "Buy milk", completed := some false,
                    deletedAt := some 10 }) ∧
      patchRestore s1 "w" 20 =
        some ({ todos := [{ id := "w", title := some "Buy milk", completed := some false,
                            restoredAt := some 20 }],
                recycled := [] },
          { id := "w", title := some "Buy milk", completed := some false,
            restoredAt := some 20 }) :=
  delete_restore_roundtrip
    { todos := [{ id := "w", title := some "Buy milk", completed := some false }],
      recycled := [] }
    { id := "w", title := some "Buy milk", completed := some false } [] 10 20
    (by decide) (by simp)

/-- C7 (amended): the server permanent-delete handler fails NotFound
(404) on an identifier absent from the Recycle Set and performs no store
write, and on a present identifier removes it from the Recycle Set while
never touching the Active Set; `Storage.permanentlyDeleteTask`, however,
has no NotFound path — on an absent identifier it returns normally with
the recycled contents unchanged (rewriting the store), and it too never
touches the Active Set. -/
theorem purge_contract (s : ServerState) (ss : StorageState)
    (id id2 : String) (t : Task) (rest : List Task)
    (hfound : extractFirst (fun x => x.id == id) s.recycled = some (t, rest))
    (habsent : extractFirst (fun x => x.id == id2) s.recycled = none)
    (habsent2 : ∀ x ∈ ss.recycledTasks, (x.id == id2) = false) :
    deleteTodoPermanently s id = some ({ s with recycled := rest }, t) ∧
    deleteTodoPermanently s id2 = none ∧
    storagePermanentlyDeleteTask ss id2 = (ss, ss.recycledTasks) ∧
    (storagePermanentlyDeleteTask ss id).1.tasks = ss.tasks := by
  refine ⟨?_, ?_, ?_, rfl⟩
  · simp only [deleteTodoPermanently, hfound]
  · simp only [deleteTodoPermanently, habsent]
  · have hkeep : ss.recycledTasks.filter (fun x => !(x.id == id2)) = ss.recycledTasks :=
      List.filter_eq_self.mpr (fun a ha => by simp [habsent2 a ha])
    simp only [storagePermanentlyDeleteTask, hkeep]

/-- Witness for C7: a one-element recycle bin, purged at its own
identifier and probed at an absent one. -/
theorem purge_contract_witness :
    deleteTodoPermanently
        { todos := [{ id := "a" }], recycled := [{ id := "keep", deletedAt := some 1 }] }
        "keep"
      = some ({ todos := [{ id := "a" }], recycled := [] },
          { id := "keep", deletedAt := some 1 }) ∧
    deleteTodoPermanently
        { todos := [{ id := "a" }], recycled := [{ id := "keep", deletedAt := some 1 }] }
        "zzz" = none ∧
    storagePermanentlyDeleteTask
        { tasks := [{ id := "a" }], recycledTasks := [{ id := "keep", deletedAt := some 1 }] }
        "zzz"
      = ({ tasks := [{ id := "a" }], recycledTasks := [{ id := "keep", deletedAt := some 1 }] },
          [{ id := "keep", deletedAt := some 1 }]) := by
  have h := purge_contract
    { todos := [{ id := "a" }], recycled := [{ id := "keep", deletedAt := some 1 }] }
    { tasks := [{ id := "a" }], recycledTasks := [{ id := "keep", deletedAt := some 1 }] }
    "keep" "zzz" { id := "keep", deletedAt := some 1 } []
    (by decide) (by decide) (by decide)
  exact ⟨h.1, h.2.1, h.2.2.1⟩

/-- C7 counterexample: purging an identifier absent from the Recycle Set
makes the server handler fail (`none`, mapped to 404 NotFound) but makes
`Storage.permanentlyDeleteTask` return normally with the filtered list —
the storage implementation never fails with NotFound. -/
theorem purge_no_notfound_cex :
    deleteTodoPermanently
        { todos := [], recycled := [{ id := "keep", deletedAt := some 1 }] } "zzz" = none ∧
    storagePermanentlyDeleteTask
        { tasks := [], recycledTasks := [{ id := "keep", deletedAt := some 1 }] } "zzz"
      = ({ tasks := [], recycledTasks := [{ id := "keep", deletedAt := some 1 }] },
          [{ id := "keep", deletedAt := some 1 }]) := by
  constructor <;> rfl

/-- C8 (amended): the server create and edit handlers perform no title
validation — a create request whose title is the empty string inserts a
task with that empty title into the Active Set, and an edit request with
an empty title is applied to the stored task — while the client form
handler refuses to issue any API request when the trimmed title input is
empty, so only UI-originated requests are guarded. -/
theorem empty_title_not_validated (s : ServerState) (body : Body)
    (freshId : String) (now : Int) (id : String) (t' : Task)
    (todos' : List Task) (htitle : body.title = some "")
    (hmod : modifyFirst (fun x => mergeTodo x body now) (fun x => x.id == id) s.todos
      = some (t', todos'))
    (input dueDate category : String) (hblank : jsTrim input = "") :
    (postTodo s body freshId now).1.todos = s.todos ++ [createTask body freshId now] ∧
    (createTask body freshId now).title = some "" ∧
    putTodo s id body now = some ({ s with todos := todos' }, t') ∧
    t'.title = some "" ∧
    clientSaveTask input dueDate category now = none := by
  refine ⟨rfl, by simp [createTask, htitle], ?_, ?_, by simp [clientSaveTask, hblank]⟩
  · simp only [putTodo, hmod]
  · obtain ⟨l1, x, l2, hsplit, hsplit2, rfl⟩ := modifyFirst_split hmod
    simp [mergeTodo, spreadOv, htitle]

/-- Witness for C8: a concrete empty-title create and edit against a
one-task store, plus the client guard on a blank input. -/
theorem empty_title_not_validated_witness :
    (postTodo { todos := [{ id := "a", title := some "old" }], recycled := [] }
        { title := some "" } "u1" 3).1.todos
      = [{ id := "a", title := some "old" },
         { id := "u1", title := some "", createdAt := some 3 }] ∧
    putTodo { todos := [{ id := "a", title := some "old" }], recycled := [] } "a"
        { title := some "" } 3
      = some ({ todos := [{ id := "a", title := some "", updatedAt := some 3 }],
                recycled := [] },
          { id := "a", title := some "", updatedAt := some 3 }) ∧
    clientSaveTask "   " "2025-01-01" "home" 3 = none := by
  have h := empty_title_not_validated
    { todos := [{ id := "a", title := some "old" }], recycled := [] }
    { title := some "" } "u1" 3 "a" { id := "a", title := some "", updatedAt := some 3 }
    [{ id := "a", title := some "", updatedAt := some 3 }]
    rfl (by decide) "   " "2025-01-01" "home" (by decide)
  exact ⟨h.1, h.2.2.1, h.2.2.2.2⟩

/-- C8 counterexample: a create request with an empty title is not
rejected — it mutates the store, inserting a task whose title is the
empty string. -/
theorem empty_title_inserted_cex :
    (postTodo { todos := [], recycled := [] } { title := some "" } "u1" 0).1.todos
      = [{ id := "u1", title := some "", createdAt := some 0 }] ∧
    (postTodo { todos := [], recycled := [] } { title := some "" } "u1" 0).1.todos ≠ [] := by
  constructor
  · rfl
  · decide

/-- C9: evaluation of the code at the failing input.  The client does
issue a cleanup request when the recycle bin view is opened, but only
after the recycled list has been fetched and rendered, and the server
dispatches `DELETE /api/todos/cleanup` to the permanent-delete route
`'/api/todos/:id'` — registered first, its `:id` parameter matches the
segment `cleanup` — so the sweep never runs: opening the view over a
task deleted a full window before the cutoff surfaces that stale task
and leaves the stores unchanged. -/
theorem stale_task_surfaces :
    dispatchDelete "cleanup" = some DeleteHandler.byId ∧
    showRecycleBin { todos := [], recycled := [{ id := "old", deletedAt := some 0 }] }
        retentionWindowMs
      = ([{ id := "old", deletedAt := some 0 }],
         { todos := [], recycled := [{ id := "old", deletedAt := some 0 }] }) := by
  constructor <;> rfl

/-- C10 (amended): provided the request body carries no `id` key, create
assigns the freshly generated identifier and edit and toggle preserve
every stored identifier; but the spread of the request body after
`id: uuidv4()` means a body that does carry an `id` key overrides the
generated or stored identifier, so stability holds only for id-free
bodies (and uniqueness additionally needs the generated identifiers to be
fresh). -/
theorem id_stability_without_body_id (s : ServerState) (body : Body)
    (freshId : String) (now : Int) (id : String) (t' : Task)
    (todos' : List Task) (hid : body.id = none)
    (hmod : modifyFirst (fun x => mergeTodo x body now) (fun x => x.id == id) s.todos
      = some (t', todos'))
    (t2' : Task) (todos2' : List Task)
    (hmod2 : modifyFirst (fun x => toggleTodo x now) (fun x => x.id == id) s.todos
      = some (t2', todos2')) :
    (createTask body freshId now).id = freshId ∧
    (∀ x : Task, (mergeTodo x body now).id = x.id) ∧
    (∀ x : Task, (toggleTodo x now).id = x.id) ∧
    taskIds todos' = taskIds s.todos ∧
    taskIds todos2' = taskIds s.todos := by
  have hm : ∀ x : Task, (mergeTodo x body now).id = x.id := by
    intro x; simp [mergeTodo, hid]
  have ht : ∀ x : Task, (toggleTodo x now).id = x.id := fun x => rfl
  exact ⟨by simp [createTask, hid], hm, ht,
    modifyFirst_taskIds hm hmod, modifyFirst_taskIds ht hmod2⟩

/-- Witness for C10: id-free create, edit and toggle against a one-task
store. -/
theorem id_stability_without_body_id_witness :
    (createTask { title := some "t" } "fresh" 0).id = "fresh" ∧
    taskIds [mergeTodo { id := "a", title := some "old" } { title := some "t" } 0]
      = taskIds [{ id := "a", title := some "old" }] ∧
    taskIds [toggleTodo { id := "a", title := some "old" } 0]
      = taskIds [{ id := "a", title := some "old" }] := by
  have h := id_stability_without_body_id
    { todos := [{ id := "a", title := some "old" }], recycled := [] }
    { title := some "t" } "fresh" 0 "a"
    (mergeTodo { id := "a", title := some "old" } { title := some "t" } 0)
    [mergeTodo { id := "a", title := some "old" } { title := some "t" } 0]
    rfl (by decide)
    (toggleTodo { id := "a", title := some "old" } 0)
    [toggleTodo { id := "a", title := some "old" } 0]
    (by decide)
  exact ⟨h.1, h.2.2.2.1, h.2.2.2.2⟩

/-- C10 counterexample: a create request body carrying an `id` key
overrides the freshly generated identifier, and an edit body carrying an
`id` key changes the stored identifier. -/
theorem body_id_overrides_cex :
    (createTask { id := some "hack" } "fresh-uuid" 0).id = "hack" ∧
    (createTask { id := some "hack" } "fresh-uuid" 0).id ≠ "fresh-uuid" ∧
    (mergeTodo { id := "orig" } { id := some "evil" } 0).id = "evil" := by
  refine ⟨rfl, by decide, rfl⟩

/-- Identifier bookkeeping: `taskIds` distributes over append. -/
theorem taskIds_append (l1 l2 : List Task) :
    taskIds (l1 ++ l2) = taskIds l1 ++ taskIds l2 := by
  simp [taskIds]

/-- Appending one fresh identifier keeps a duplicate-free list
duplicate-free. -/
theorem nodup_append_singleton {l : List String} {a : String}
    (h : l.Nodup) (ha : a ∉ l) : (l ++ [a]).Nodup := by
  simp [List.nodup_append, h, ha]

/-- Membership in a list with one element appended. -/
theorem mem_append_singleton {l : List String} {a b : String}
    (h : b ∈ l ++ [a]) : b ∈ l ∨ b = a := by
  rcases List.mem_append.mp h with h1 | h2
  · exact Or.inl h1
  · exact Or.inr (by simpa using h2)

/-- Constructor form of `WFState`. -/
theorem WFState_mk {A R : List Task}
    (h1 : (taskIds A).Nodup) (h2 : (taskIds R).Nodup)
    (h3 : ∀ i, i ∈ taskIds A → i ∉ taskIds R) :
    WFState { todos := A, recycled := R } :=
  ⟨h1, h2, h3⟩

/-- C2 (amended): provided create and edit request bodies carry no `id`
key and the generated identifier of a create is fresh, every public
server operation — create, edit, toggle, delete-to-recycle, restore,
purge and sweep — preserves well-formedness of the two stores: no
identifier is duplicated within a store and no identifier appears in both
the Active Set and the Recycle Set; delete and restore move the record
between the sets without ever leaving it referenced by both. -/
theorem op_preserves_wellformed (s : ServerState) (op : Op)
    (hwf : WFState s) (hok : OpOk s op) : WFState (applyOp s op) := by
  obtain ⟨hndA, hndR, hdisj⟩ := hwf
  cases op with
  | create body freshId now =>
    obtain ⟨hid, hfA, hfR⟩ := hok
    have happly : applyOp s (Op.create body freshId now)
        = { s with todos := s.todos ++ [createTask body freshId now] } := rfl
    rw [happly]
    have hcid : (createTask body freshId now).id = freshId := by
      simp [createTask, hid]
    have hids : taskIds (s.todos ++ [createTask body freshId now])
        = taskIds s.todos ++ [freshId] := by
      rw [taskIds_append]
      simp [taskIds, hcid]
    refine WFState_mk ?_ hndR ?_
    · rw [hids]
      exact nodup_append_singleton hndA hfA
    · intro i hi
      rw [hids] at hi
      rcases mem_append_singleton hi with h1 | h2
      · exact hdisj i h1
      · subst h2
        exact hfR
  | edit id body now =>
    have hid : body.id = none := hok
    cases hmod : modifyFirst (fun t => mergeTodo t body now)
        (fun t => t.id == id) s.todos with
    | none =>
      have happly : applyOp s (Op.edit id body now) = s := by
        simp only [applyOp, putTodo, hmod]
      rw [happly]
      exact ⟨hndA, hndR, hdisj⟩
    | some pr =>
      obtain ⟨t', todos'⟩ := pr
      have happly : applyOp s (Op.edit id body now) = { s with todos := todos' } := by
        simp only [applyOp, putTodo, hmod]
      rw [happly]
      have hids : taskIds todos' = taskIds s.todos :=
        modifyFirst_taskIds (fun x => by simp [mergeTodo, hid]) hmod
      exact WFState_mk (by rw [hids]; exact hndA) hndR
        (fun i hi => hdisj i (by rwa [hids] at hi))
  | toggle id now =>
    have ht : ∀ x : Task, (toggleTodo x now).id = x.id := fun x => rfl
    cases hmod : modifyFirst (fun t => toggleTodo t now)
        (fun t => t.id == id) s.todos with
    | none =>
      have happly : applyOp s (Op.toggle id now) = s := by
        simp only [applyOp, patchToggle, hmod]
      rw [happly]
      exact ⟨hndA, hndR, hdisj⟩
    | some pr =>
      obtain ⟨t', todos'⟩ := pr
      have happly : applyOp s (Op.toggle id now) = { s with todos := todos' } := by
        simp only [applyOp, patchToggle, hmod]
      rw [happly]
      have hids : taskIds todos' = taskIds s.todos := modifyFirst_taskIds ht hmod
      exact WFState_mk (by rw [hids]; exact hndA) hndR
        (fun i hi => hdisj i (by rwa [hids] at hi))
  | recycle id now =>
    cases hext : extractFirst (fun t => t.id == id) s.todos with
    | none =>
      have happly : applyOp s (Op.recycle id now) = s := by
        simp only [applyOp, patchRecycle, hext]
      rw [happly]
      exact ⟨hndA, hndR, hdisj⟩
    | some pr =>
      obtain ⟨t, rest⟩ := pr
      have happly : applyOp s (Op.recycle id now)
          = { todos := rest,
              recycled := s.recycled ++ [{ t with deletedAt := some now }] } := by
        simp only [applyOp, patchRecycle, hext]
      rw [happly]
      obtain ⟨hndRest, hnotmem, hsub, hmem⟩ := extractFirst_taskIds hext hndA
      have htid : t.id ∉ taskIds s.recycled := hdisj t.id hmem
      have hids : taskIds (s.recycled ++ [{ t with deletedAt := some now }])
          = taskIds s.recycled ++ [t.id] := by
        rw [taskIds_append]
        simp [taskIds]
      refine WFState_mk hndRest ?_ ?_
      · rw [hids]
        exact nodup_append_singleton hndR htid
      · intro i hi
        rw [hids]
        intro hmem2
        rcases mem_append_singleton hmem2 with h1 | h2
        · exact hdisj i (hsub i hi) h1
        · subst h2
          exact hnotmem hi
  | restore id now =>
    cases hext : extractFirst (fun t => t.id == id) s.recycled with
    | none =>
      have happly : applyOp s (Op.restore id now) = s := by
        simp only [applyOp, patchRestore, hext]
      rw [happly]
      exact ⟨hndA, hndR, hdisj⟩
    | some pr =>
      obtain ⟨t, rest⟩ := pr
      have happly : applyOp s (Op.restore id now)
          = { todos := s.todos ++ [{ t with deletedAt := none, restoredAt := some now }],
              recycled := rest } := by
        simp only [applyOp, patchRestore, hext]
      rw [happly]
      obtain ⟨hndRest, hnotmem, hsub, hmem⟩ := extractFirst_taskIds hext hndR
      have htidA : t.id ∉ taskIds s.todos := fun hA => hdisj t.id hA hmem
      have hids : taskIds
            (s.todos ++ [{ t with deletedAt := none, restoredAt := some now }])
          = taskIds s.todos ++ [t.id] := by
        rw [taskIds_append]
        simp [taskIds]
      refine WFState_mk ?_ hndRest ?_
      · rw [hids]
        exact nodup_append_singleton hndA htidA
      · intro i hi
        rw [hids] at hi
        rcases mem_append_singleton hi with h1 | h2
        · intro hr
          exact hdisj i h1 (hsub i hr)
        · subst h2
          exact hnotmem
  | purge id =>
    cases hext : extractFirst (fun t => t.id == id) s.recycled with
    | none =>
      have happly : applyOp s (Op.purge id) = s := by
        simp only [applyOp, deleteTodoPermanently, hext]
      rw [happly]
      exact ⟨hndA, hndR, hdisj⟩
    | some pr =>
      obtain ⟨t, rest⟩ := pr
      have happly : applyOp s (Op.purge id) = { s with recycled := rest } := by
        simp only [applyOp, deleteTodoPermanently, hext]
      rw [happly]
      obtain ⟨hndRest, hnotmem, hsub, hmem⟩ := extractFirst_taskIds hext hndR
      exact WFState_mk hndA hndRest (fun i hi hri => hdisj i hi (hsub i hri))
  | sweep cutoff =>
    have happly : applyOp s (Op.sweep cutoff)
        = { s with recycled := s.recycled.filter (serverKeep cutoff) } := rfl
    rw [happly]
    have hsubl : (s.recycled.filter (serverKeep cutoff)).Sublist s.recycled :=
      List.filter_sublist s.recycled
    have hmap : (taskIds (s.recycled.filter (serverKeep cutoff))).Sublist
        (taskIds s.recycled) :=
      List.Sublist.map (fun t : Task => t.id) hsubl
    exact WFState_mk hndA (hmap.nodup hndR)
      (fun i hi hmem => hdisj i hi (hmap.subset hmem))

/-- Witness for C2: a well-formed two-task store, an id-free create with
a fresh identifier, and the preserved invariant. -/
theorem op_preserves_wellformed_witness :
    WFState { todos := [{ id := "a" }], recycled := [{ id := "b", deletedAt := some 1 }] } ∧
    OpOk { todos := [{ id := "a" }], recycled := [{ id := "b", deletedAt := some 1 }] }
      (Op.create { title := some "t" } "c" 0) ∧
    WFState (applyOp { todos := [{ id := "a" }], recycled := [{ id := "b", deletedAt := some 1 }] }
      (Op.create { title := some "t" } "c" 0)) :=
  ⟨⟨by decide, by decide, by decide⟩, ⟨rfl, by decide, by decide⟩,
    op_preserves_wellformed
      { todos := [{ id := "a" }], recycled := [{ id := "b", deletedAt := some 1 }] }
      (Op.create { title := some "t" } "c" 0)
      ⟨by decide, by decide, by decide⟩ ⟨rfl, by decide, by decide⟩⟩

/-- C2 counterexample: a reachable trace through the public API — create
with a body carrying `id: "a"`, recycle it, create again with the same
body — leaves the identifier `a` referenced by the Active Set and the
Recycle Set simultaneously. -/
theorem duplicate_id_reachable_cex :
    "a" ∈ taskIds (applyOp (applyOp (applyOp { todos := [], recycled := [] }
        (Op.create { id := some "a", title := some "x" } "u1" 0))
        (Op.recycle "a" 1))
        (Op.create { id := some "a", title := some "y" } "u2" 2)).todos ∧
    "a" ∈ taskIds (applyOp (applyOp (applyOp { todos := [], recycled := [] }
        (Op.create { id := some "a", title := some "x" } "u1" 0))
        (Op.recycle "a" 1))
        (Op.create { id := some "a", title := some "y" } "u2" 2)).recycled := by
  constructor <;> decide

end TodoApp
